import Mathlib

/-!
Verification of the symbol-database layer of a C/C++ static-analysis tool.

The repository ships the component's test suite (src/test/testsymboldatabase.cpp);
the symbol-database implementation itself (lib/symboldatabase.{h,cpp}) is not part
of the sources provided. The definitions below are therefore modelled from the
specification's description of each component, with the test suite's assertions
pinning down concrete expected values.
-/

namespace SymbolDB

/-! ## Enumerator evaluator (spec 4.5)

Processes each enum scope in declaration order; an enumerator's value is the
previous enumerator's value + 1 unless it has an explicit initializer;
initializers may reference other already-known enumerators, const integer
variables, or sizeof, and are folded when all referenced sub-expressions are
constant-foldable, otherwise the enumerator is marked "value unknown". -/

/-- Modelled from the spec: an enumerator initializer expression. Missing from
src/: the expression representation used by the enumerator evaluator of
lib/symboldatabase.cpp. References name already-known enumerators or const
integer variables; `szof` stands for a `sizeof` sub-expression whose byte count
the platform tables supply. -/
inductive EnumExpr where
  | num (n : Int)
  | ref (name : String)
  | szof (n : Int)
  | add (a b : EnumExpr)
  | sub (a b : EnumExpr)
  | mul (a b : EnumExpr)
deriving DecidableEq

/-- Modelled from the spec: constant folding of an enumerator initializer over
an environment of already-known named integer constants (enumerators seen so
far and const integer variables). Folds exactly when every referenced
sub-expression is foldable. -/
def foldExpr (env : List (String × Int)) : EnumExpr → Option Int
  | .num n => some n
  | .ref s => (env.find? (fun p => decide (p.1 = s))).map Prod.snd
  | .szof n => some n
  | .add a b => do pure ((← foldExpr env a) + (← foldExpr env b))
  | .sub a b => do pure ((← foldExpr env a) - (← foldExpr env b))
  | .mul a b => do pure ((← foldExpr env a) * (← foldExpr env b))

/-- One enumerator as written in the source: a name and an optional explicit
initializer expression. -/
structure EnumItem where
  name : String
  ini : Option EnumExpr
deriving DecidableEq

/-- One computed Enumerator record: name, computed integer value, the
"value known" flag, and whether the initializer start/end token range is
present (false models `start == nullptr && end == nullptr`). -/
structure Enumerator where
  name : String
  value : Int
  value_known : Bool
  hasInitRange : Bool
deriving DecidableEq

/-- Modelled from the spec: the enumerator evaluator's walk over one enum
scope in declaration order. Missing from src/: the enum-value computation of
lib/symboldatabase.cpp. `prev` is the previous enumerator's value when known
(`none` once a value could not be folded). An enumerator without an
initializer gets `prev + 1` when `prev` is known and is otherwise unknown; an
enumerator with an initializer gets the folded value when folding succeeds and
is otherwise unknown. Known values extend the environment for later
initializers. -/
def evalEnumAux (env : List (String × Int)) (prev : Option Int) :
    List EnumItem → List Enumerator
  | [] => []
  | item :: rest =>
    match item.ini with
    | none =>
      match prev with
      | some p =>
        ⟨item.name, p + 1, true, false⟩ ::
          evalEnumAux ((item.name, p + 1) :: env) (some (p + 1)) rest
      | none => ⟨item.name, 0, false, false⟩ :: evalEnumAux env none rest
    | some e =>
      match foldExpr env e with
      | some v =>
        ⟨item.name, v, true, true⟩ ::
          evalEnumAux ((item.name, v) :: env) (some v) rest
      | none => ⟨item.name, 0, false, true⟩ :: evalEnumAux env none rest

/-- Modelled from the spec: evaluate one enum scope. The initial environment
holds the const integer variables visible at the enum; the implicit base value
is `-1` so that a first enumerator without initializer computes to `0`. -/
def evalEnum (env : List (String × Int)) (items : List EnumItem) : List Enumerator :=
  evalEnumAux env (some (-1)) items

end SymbolDB

namespace SymbolDB

/-- enum3 from the test suite: `enum ABC { A=11, B, C=A+B };`. -/
def enum3Items : List EnumItem :=
  [⟨"A", some (.num 11)⟩, ⟨"B", none⟩,
   ⟨"C", some (.add (.ref "A") (.ref "B"))⟩]

/-- enum8 from the test suite: `enum E { X0 = x, X1, X2 = 2, X3, X4 = y, X5 };`
with `x` and `y` unknown. -/
def enum8Items : List EnumItem :=
  [⟨"X0", some (.ref "x")⟩, ⟨"X1", none⟩, ⟨"X2", some (.num 2)⟩,
   ⟨"X3", none⟩, ⟨"X4", some (.ref "y")⟩, ⟨"X5", none⟩]

end SymbolDB

namespace SymbolDB

/-- C2: the enumerator evaluator processes an enum scope in declaration order:
an enumerator without an explicit initializer gets the previous enumerator's
value plus 1; an initializer is constant-folded exactly when all referenced
sub-expressions fold, and otherwise the value-known flag is false; for
`enum E { A=11, B, C=A+B };` the values are A==11, B==12, C==23, all known. -/
theorem enumerator_evaluation_spec :
    (∀ env p name rest,
      evalEnumAux env (some p) (⟨name, none⟩ :: rest) =
        ⟨name, p + 1, true, false⟩ ::
          evalEnumAux ((name, p + 1) :: env) (some (p + 1)) rest) ∧
    (∀ env prev name e rest, foldExpr env e = none →
      (evalEnumAux env prev (⟨name, some e⟩ :: rest)).head? =
        some ⟨name, 0, false, true⟩) ∧
    (∀ env prev name e v rest, foldExpr env e = some v →
      (evalEnumAux env prev (⟨name, some e⟩ :: rest)).head? =
        some ⟨name, v, true, true⟩) ∧
    evalEnum [] enum3Items =
      [⟨"A", 11, true, true⟩, ⟨"B", 12, true, false⟩, ⟨"C", 23, true, true⟩] := by
  refine ⟨fun env p name rest => rfl, ?_, ?_, by decide⟩
  · intro env prev name e rest h
    simp [evalEnumAux, h]
  · intro env prev name e v rest h
    simp [evalEnumAux, h]

/-- Witness for `enumerator_evaluation_spec` at concrete inputs: an
unfoldable initializer (a reference to an unknown name) yields value-known
false, and a foldable one yields its folded value with value-known true. -/
theorem enumerator_evaluation_spec_witness :
    (evalEnumAux [] none [⟨"X0", some (.ref "x")⟩]).head? =
        some ⟨"X0", 0, false, true⟩ ∧
    (evalEnumAux [] (some 1) [⟨"X2", some (.num 2)⟩]).head? =
        some ⟨"X2", 2, true, true⟩ :=
  ⟨enumerator_evaluation_spec.2.1 [] none "X0" (.ref "x") [] (by decide),
   enumerator_evaluation_spec.2.2.1 [] (some 1) "X2" (.num 2) 2 [] (by decide)⟩

/-- C9: for every enum whose first enumerator has no explicit initializer,
that first enumerator's computed value is 0 with value-known true and with its
initializer token range absent; moreover (enum8) an enumerator without an
initializer that follows an unknown-valued one is itself unknown, so the
"previous value + 1" rule genuinely needs this stated base case. -/
theorem first_enumerator_defaults_to_zero :
    (∀ env name rest,
      (evalEnum env (⟨name, none⟩ :: rest)).head? =
        some ⟨name, 0, true, false⟩) ∧
    evalEnum [] enum8Items =
      [⟨"X0", 0, false, true⟩, ⟨"X1", 0, false, false⟩, ⟨"X2", 2, true, true⟩,
       ⟨"X3", 3, true, false⟩, ⟨"X4", 0, false, true⟩, ⟨"X5", 0, false, false⟩] := by
  constructor
  · intro env name rest
    simp [evalEnum, evalEnumAux]
  · decide

end SymbolDB

namespace SymbolDB

/-! ## Variable table: declarator shapes and flags (spec 4.1/4.3, spec 8)

`isVariableDeclaration` is the deterministic syntactic classifier of the
Scope Tree Builder; the Variable record then exposes the mutually consistent
shape flags isPointer/isArray/isReference/isPointerArray/isPointerToArray.
Per the spec's input boundary, tokenization has already happened, so a token
is either a punctuation mark, an identifier, or a number. -/

/-- One token of the pre-tokenized input stream (spec 6: the tokenizer is an
external collaborator, so tokens arrive already classified). -/
inductive Tok where
  | star
  | amp
  | lparen
  | rparen
  | lbrack
  | rbrack
  | semi
  | ident (s : String)
  | num (n : Nat)
deriving DecidableEq

/-- The outermost declarator shape of one accepted simple declaration. -/
inductive DeclShape where
  | plain
  | ptr
  | ref
  | array (n : Nat)
  | arrayOfPtr (n : Nat)
  | ptrToArray (n : Nat)
deriving DecidableEq

/-- Modelled from the spec: the declarator-shape part of
`Scope::isVariableDeclaration` restricted to the simple shapes the claim
names. Missing from src/: lib/symboldatabase.cpp's classifier. Input is the
token list after the type token; on success returns the variable name and the
recognized shape. -/
def classifyDeclarator : List Tok → Option (String × DeclShape)
  | [.ident v, .semi] => some (v, .plain)
  | [.star, .ident v, .semi] => some (v, .ptr)
  | [.amp, .ident v, .semi] => some (v, .ref)
  | [.ident v, .lbrack, .num n, .rbrack, .semi] => some (v, .array n)
  | [.star, .ident v, .lbrack, .num n, .rbrack, .semi] => some (v, .arrayOfPtr n)
  | [.lparen, .star, .ident v, .rparen, .lbrack, .num n, .rbrack, .semi] =>
    some (v, .ptrToArray n)
  | _ => none

/-- Modelled from the spec: `Scope::isVariableDeclaration` over a whole
simple-declaration token list: first token is the type name, the rest is the
declarator. On success returns (variable name, type name, shape), matching
the `vartok`/`typetok` output parameters of the source function. -/
def isVariableDeclaration (toks : List Tok) : Option (String × String × DeclShape) :=
  match toks with
  | .ident t :: rest => (classifyDeclarator rest).map (fun p => (p.1, t, p.2))
  | _ => none

/-- Modelled from the spec: `Variable::isPointer` — true for a plain pointer
and for a pointer to array, false for an array of pointers. -/
def DeclShape.isPointer : DeclShape → Bool
  | .ptr => true
  | .ptrToArray _ => true
  | _ => false

/-- Modelled from the spec: `Variable::isArray` — true for an array and for
an array of pointers, false for a pointer to array. -/
def DeclShape.isArray : DeclShape → Bool
  | .array _ => true
  | .arrayOfPtr _ => true
  | _ => false

/-- Modelled from the spec: `Variable::isReference`. -/
def DeclShape.isReference : DeclShape → Bool
  | .ref => true
  | _ => false

/-- Modelled from the spec: `Variable::isPointerArray` — an array whose
elements are pointers. -/
def DeclShape.isPointerArray : DeclShape → Bool
  | .arrayOfPtr _ => true
  | _ => false

/-- Modelled from the spec: `Variable::isPointerToArray` — a pointer whose
pointee is an array. -/
def DeclShape.isPointerToArray : DeclShape → Bool
  | .ptrToArray _ => true
  | _ => false

/-- Exactly one of three booleans is true. -/
def exactlyOne (a b c : Bool) : Bool :=
  (a && !b && !c) || (!a && b && !c) || (!a && !b && c)

end SymbolDB

namespace SymbolDB

/-- C5 counterexample: for the accepted simple declaration `int x;` — one of
the four shapes the claim quantifies over — none of the outermost-shape flags
(pointer, array, reference) is true, so "exactly one of the flags is true"
fails at this input (the test suite's
test_isVariableDeclarationIdentifiesSimpleDeclaration asserts all three
false). -/
theorem plain_declaration_has_no_shape_flag :
    isVariableDeclaration [.ident "int", .ident "x", .semi] =
      some ("x", "int", .plain) ∧
    exactlyOne DeclShape.plain.isPointer DeclShape.plain.isArray
      DeclShape.plain.isReference = false := by
  decide

/-- C5 (amended): for every accepted simple declaration, at most one of the
outermost-shape flags (pointer, array, reference) is true — `T v;` sets none
and each of `T* v;`, `T& v;`, `T v[N];` sets exactly its own — and the
combined shapes stay mutually consistent: `A *a[5];` has isArray and
isPointerArray true but isPointer false, while `A (*a)[5];` has isPointer and
isPointerToArray true but isArray false. -/
theorem variable_shape_flags_consistent :
    (∀ sh : DeclShape,
      sh.isPointer.toNat + sh.isArray.toNat + sh.isReference.toNat ≤ 1) ∧
    (∀ t v,
      isVariableDeclaration [.ident t, .ident v, .semi] =
        some (v, t, .plain) ∧
      isVariableDeclaration [.ident t, .star, .ident v, .semi] =
        some (v, t, .ptr) ∧
      isVariableDeclaration [.ident t, .amp, .ident v, .semi] =
        some (v, t, .ref) ∧
      (∀ n, isVariableDeclaration
        [.ident t, .ident v, .lbrack, .num n, .rbrack, .semi] =
          some (v, t, .array n))) ∧
    exactlyOne DeclShape.ptr.isPointer DeclShape.ptr.isArray
      DeclShape.ptr.isReference = true ∧
    exactlyOne DeclShape.ref.isPointer DeclShape.ref.isArray
      DeclShape.ref.isReference = true ∧
    (∀ n, exactlyOne (DeclShape.array n).isPointer (DeclShape.array n).isArray
      (DeclShape.array n).isReference = true) ∧
    isVariableDeclaration
      [.ident "A", .star, .ident "a", .lbrack, .num 5, .rbrack, .semi] =
        some ("a", "A", .arrayOfPtr 5) ∧
    ((DeclShape.arrayOfPtr 5).isArray = true ∧
     (DeclShape.arrayOfPtr 5).isPointerArray = true ∧
     (DeclShape.arrayOfPtr 5).isPointer = false ∧
     (DeclShape.arrayOfPtr 5).isPointerToArray = false) ∧
    isVariableDeclaration
      [.ident "A", .lparen, .star, .ident "a", .rparen, .lbrack, .num 5,
        .rbrack, .semi] = some ("a", "A", .ptrToArray 5) ∧
    ((DeclShape.ptrToArray 5).isPointer = true ∧
     (DeclShape.ptrToArray 5).isPointerToArray = true ∧
     (DeclShape.ptrToArray 5).isArray = false ∧
     (DeclShape.ptrToArray 5).isPointerArray = false) := by
  refine ⟨fun sh => ?_, fun t v => ⟨rfl, rfl, rfl, fun n => rfl⟩, by decide,
    by decide, fun n => rfl, by decide, by decide, by decide, by decide⟩
  cases sh <;> simp [DeclShape.isPointer, DeclShape.isArray, DeclShape.isReference]

end SymbolDB

namespace SymbolDB

/-! ## Function table and overload matching (spec 4.4)

Overload resolution at a call site ranks candidates by, in order:
(1) exact type and qualifier match, (2) standard promotions (bool/char/short
to int, float to double) and same-family size changes, (3) pointer
compatibility fallback (compatible void pointer), (4) variadic/ellipsis
candidates as last resort. A tie with no unique best candidate leaves the
call unresolved. -/

/-- A C type as the overload matcher sees it. -/
inductive CType where
  | boolT
  | charT
  | shortT
  | sIntT
  | uIntT
  | sLongT
  | uLongT
  | sLLongT
  | uLLongT
  | floatT
  | doubleT
  | longDoubleT
  | voidT
  | ptrT (p : CType)
  | recordT (name : String)
deriving DecidableEq

/-- The integer family of types eligible for same-family size changes. -/
def CType.isIntegerFamily : CType → Bool
  | .boolT | .charT | .shortT | .sIntT | .uIntT | .sLongT | .uLongT
  | .sLLongT | .uLLongT => true
  | _ => false

/-- The floating family of types. -/
def CType.isFloatFamily : CType → Bool
  | .floatT | .doubleT | .longDoubleT => true
  | _ => false

/-- Modelled from the spec: the rank one argument contributes when passed to
one parameter. Missing from src/: the call-site matcher of
lib/symboldatabase.cpp (findFunction). `some 0` is an exact match, `some 1` a
standard promotion (bool/char/short to int, float to double) or a
same-family size change, `some 2` a compatible-void-pointer fallback, `none`
an unrelated type that does not match at all. -/
def argRank (param arg : CType) : Option Nat :=
  if param = arg then some 0
  else if (arg = .boolT || arg = .charT || arg = .shortT) && param = .sIntT then
    some 1
  else if arg = .floatT && param = .doubleT then some 1
  else if param.isIntegerFamily && arg.isIntegerFamily then some 1
  else if param.isFloatFamily && arg.isFloatFamily then some 1
  else
    match param, arg with
    | .ptrT .voidT, .ptrT _ => some 2
    | .ptrT _, .ptrT .voidT => some 2
    | _, _ => none

/-- One same-named candidate overload: an identifier for the Function record
(the test suite uses the declaration line number), its parameter types, and
whether it is variadic. -/
structure FnCandidate where
  fid : Nat
  params : List CType
  variadic : Bool
deriving DecidableEq

/-- Ranks for all positional arguments against the parameter list; `none`
when lengths differ or some argument does not match its parameter. -/
def allRanks : List CType → List CType → Option (List Nat)
  | [], [] => some []
  | p :: ps, a :: as => do
    let r ← argRank p a
    let rs ← allRanks ps as
    pure (r :: rs)
  | _, _ => none

/-- Modelled from the spec: the overall rank of a candidate for a call.
A variadic candidate is last resort (rank 3) and accepts extra trailing
arguments; a non-variadic candidate's rank is its worst per-argument rank. -/
def matchCall (c : FnCandidate) (args : List CType) : Option Nat :=
  if c.variadic then
    if c.params.length ≤ args.length then
      (allRanks c.params (args.take c.params.length)).map (fun _ => 3)
    else none
  else (allRanks c.params args).map (fun rs => rs.foldr max 0)

/-- Modelled from the spec: `SymbolDatabase::findFunction`'s candidate
selection — rank every same-named candidate, keep those that match at all,
and bind the call exactly when a unique best-ranked candidate exists;
otherwise no function handle is attached. -/
def findFunction (cands : List FnCandidate) (args : List CType) : Option FnCandidate :=
  let ranked := cands.filterMap (fun c => (matchCall c args).map (fun r => (c, r)))
  match ranked.map Prod.snd with
  | [] => none
  | r :: rs =>
    let best := rs.foldl min r
    match ranked.filter (fun p => decide (p.2 = best)) with
    | [p] => some p.1
    | _ => none

/-- The two candidates of the claim's scenario: `void foo(int)` on line 1 and
`void foo(double)` on line 2. -/
def fooIntDouble : List FnCandidate :=
  [⟨1, [.sIntT], false⟩, ⟨2, [.doubleT], false⟩]

end SymbolDB

namespace SymbolDB

/-- C1: with `void foo(int)` and `void foo(double)` in scope, `foo(1.0f)`
binds to the floating overload (float-to-double promotion, while float does
not match int at all) and `foo(1)` binds to the integer overload (exact
match); for every call whose argument types are unrelated to all candidates
no function handle is attached; and a tie with no unique best candidate
(here: two identical `foo(int)` records) also leaves the call unresolved. -/
theorem overload_selection_spec :
    findFunction fooIntDouble [.floatT] = some ⟨2, [.doubleT], false⟩ ∧
    findFunction fooIntDouble [.sIntT] = some ⟨1, [.sIntT], false⟩ ∧
    (∀ cands args, (∀ c ∈ cands, matchCall c args = none) →
      findFunction cands args = none) ∧
    findFunction [⟨1, [.sIntT], false⟩, ⟨2, [.sIntT], false⟩] [.sIntT] = none := by
  refine ⟨by decide, by decide, ?_, by decide⟩
  intro cands args h
  have hnil : cands.filterMap
      (fun c => (matchCall c args).map (fun r => (c, r))) = [] := by
    rw [List.filterMap_eq_nil_iff]
    intro c hc
    rw [h c hc]
    rfl
  simp [findFunction, hnil]

/-- Witness for `overload_selection_spec`: a call whose record-type argument
is unrelated to both candidates stays unresolved. -/
theorem overload_selection_spec_witness :
    findFunction fooIntDouble [.recordT "X"] = none :=
  overload_selection_spec.2.2.1 fooIntDouble [.recordT "X"] (by decide)

end SymbolDB

namespace SymbolDB

/-! ## Virtual/override linkage (spec 4.4)

A derived function with the same signature as a base virtual function is
marked implicitly virtual even without the `virtual` keyword;
`getOverriddenFunction` walks the base-class graph, returns the nearest
overridden base-class function, and reports whether all base branches were
resolvable. -/

/-- A member-function signature: name, parameter types, const suffix. -/
structure Sig where
  fname : String
  argTypes : List CType
  isConst : Bool
deriving DecidableEq

/-- A member function of a class: its signature and whether the `virtual`
(or `override`/`final`) keyword appears on its declaration. -/
structure ClassFn where
  sig : Sig
  declaredVirtual : Bool
deriving DecidableEq

/-- One class of the Type registry: its name, its base-class edges in
declaration order (`none` models a base whose Type could not be resolved —
the "found" flag false case), and its member functions. -/
structure ClassRec where
  cname : String
  bases : List (Option Nat)
  fns : List ClassFn
deriving DecidableEq

/-- First index in a list satisfying a predicate. -/
def findIdxOpt (p : α → Bool) : List α → Option Nat
  | [] => none
  | a :: as => if p a then some 0 else (findIdxOpt p as).map (· + 1)

/-- Modelled from the spec: the recursive walk of `getOverriddenFunction`
over the base-class graph, searching one list of base edges. `f` recurses
into a base class at the remaining fuel; the first component is the nearest
base-class function with the given signature that is virtual there (declared
virtual, or itself overriding one further up), the second is the
found-all-base-classes flag: true exactly when every base branch was
resolvable. Leftmost base branches take priority, matching declaration
order. -/
def searchBases (classes : List ClassRec) (f : Nat → Option (Nat × Nat) × Bool)
    (s : Sig) : List (Option Nat) → Option (Nat × Nat) × Bool
  | [] => (none, true)
  | ob :: rest =>
    let acc := searchBases classes f s rest
    match ob with
    | none => (acc.1, false)
    | some bid =>
      match classes.get? bid with
      | none => (acc.1, false)
      | some bc =>
        let sub := f bid
        let here : Option (Nat × Nat) :=
          (findIdxOpt
            (fun g => decide (g.sig = s) && (g.declaredVirtual || sub.1.isSome))
            bc.fns).map (fun i => (bid, i))
        ((here.orElse (fun _ => sub.1)).orElse (fun _ => acc.1),
          sub.2 && acc.2)

/-- Modelled from the spec: `Function::getOverriddenFunction`, fuelled to
guarantee termination on arbitrary (even cyclic) base graphs. Missing from
src/: lib/symboldatabase.cpp's getOverriddenFunctionRecursive. Returns the
(class index, function index) of the nearest overridden base-class function
and the found-all-base-classes output flag. -/
def getOverriddenAux (classes : List ClassRec) :
    Nat → Nat → Sig → Option (Nat × Nat) × Bool
  | 0, _, _ => (none, false)
  | Nat.succ fuel, cid, s =>
    match classes.get? cid with
    | none => (none, false)
    | some c => searchBases classes (fun bid => getOverriddenAux classes fuel bid s) s c.bases

/-- Modelled from the spec: the public `getOverriddenFunction`, with enough
fuel for any acyclic hierarchy over the registry. -/
def getOverriddenFunction (classes : List ClassRec) (cid : Nat) (s : Sig) :
    Option (Nat × Nat) × Bool :=
  getOverriddenAux classes (classes.length + 1) cid s

/-- Modelled from the spec: `Function::isImplicitlyVirtual` — a member
function is implicitly virtual when it overrides some virtual base-class
function, whether or not its own declaration says `virtual`. -/
def isImplicitlyVirtual (classes : List ClassRec) (cid : Nat) (s : Sig) : Bool :=
  ((getOverriddenFunction classes cid s).1).isSome

/-- The functionImplicitlyVirtual test hierarchy:
`class base { virtual void f(); }; class derived : base { void f(); };`. -/
def baseDerivedClasses : List ClassRec :=
  [⟨"base", [], [⟨⟨"f", [], false⟩, true⟩]⟩,
   ⟨"derived", [some 0], [⟨⟨"f", [], false⟩, false⟩]⟩]

/-- The functionGetOverridden test hierarchy:
`struct B { virtual void f(); }; struct D : B { void f() override; };
struct D2 : D { void f() override {} };`. -/
def bDD2Classes : List ClassRec :=
  [⟨"B", [], [⟨⟨"f", [], false⟩, true⟩]⟩,
   ⟨"D", [some 0], [⟨⟨"f", [], false⟩, true⟩]⟩,
   ⟨"D2", [some 1], [⟨⟨"f", [], false⟩, true⟩]⟩]

/-- A hierarchy with one resolvable base holding the virtual function and one
unresolvable base edge. -/
def unknownBaseClasses : List ClassRec :=
  [⟨"B", [], [⟨⟨"f", [], false⟩, true⟩]⟩,
   ⟨"E", [some 0, none], [⟨⟨"f", [], false⟩, false⟩]⟩]

end SymbolDB

namespace SymbolDB

/-- Helper: `findIdxOpt` finds something when a list element satisfies the
predicate. -/
theorem findIdxOpt_isSome {α : Type} (p : α → Bool) (l : List α)
    (h : ∃ x ∈ l, p x = true) : (findIdxOpt p l).isSome = true := by
  induction l with
  | nil => simp at h
  | cons a as ih =>
    rcases h with ⟨x, hx, hpx⟩
    by_cases hpa : p a = true
    · simp [findIdxOpt, hpa]
    · rcases List.mem_cons.mp hx with rfl | hmem
      · exact absurd hpx hpa
      · have h2 := ih ⟨x, hmem, hpx⟩
        rcases Option.isSome_iff_exists.mp h2 with ⟨i, hi⟩
        simp [findIdxOpt, hpa, hi]

/-- Helper: the first component of an `orElse` chain is some when the head
option is some. -/
theorem orElse_isSome_left {α : Type} (a : Option α) (f g : Unit → Option α)
    (h : a.isSome = true) : ((a.orElse f).orElse g).isSome = true := by
  rcases Option.isSome_iff_exists.mp h with ⟨x, rfl⟩
  rfl

end SymbolDB

namespace SymbolDB

/-- Helper: an `orElse` chain is some when its right fallback is some. -/
theorem orElse_isSome_of_right {α : Type} (a : Option α) (f : Unit → Option α)
    (h : (f ()).isSome = true) : (a.orElse f).isSome = true := by
  cases a
  · simpa [Option.orElse] using h
  · rfl

/-- Helper: searching the base list finds a function when some resolvable
base edge leads to a class declaring a virtual function of the signature. -/
theorem searchBases_finds (classes : List ClassRec)
    (f : Nat → Option (Nat × Nat) × Bool) (s : Sig) (bl : List (Option Nat))
    (bid : Nat) (bc : ClassRec) (g : ClassFn)
    (hmem : (some bid) ∈ bl) (hbc : classes.get? bid = some bc)
    (hg : g ∈ bc.fns) (hsig : g.sig = s) (hvirt : g.declaredVirtual = true) :
    ((searchBases classes f s bl).1).isSome = true := by
  induction bl with
  | nil => simp at hmem
  | cons ob rest ih =>
    rcases List.mem_cons.mp hmem with rfl | hmem2
    · have hidx : (findIdxOpt
          (fun g2 => decide (g2.sig = s) && (g2.declaredVirtual || (f bid).1.isSome))
          bc.fns).isSome = true := by
        apply findIdxOpt_isSome
        exact ⟨g, hg, by simp [hsig, hvirt]⟩
      rcases Option.isSome_iff_exists.mp hidx with ⟨i, hi⟩
      simp only [searchBases, hbc]
      exact orElse_isSome_left _ _ _ (by simp [hi])
    · have hacc := ih hmem2
      cases ob with
      | none => simpa [searchBases] using hacc
      | some bid2 =>
        simp only [searchBases]
        cases hget : classes.get? bid2 with
        | none => simpa using hacc
        | some bc2 =>
          exact orElse_isSome_of_right _ _ hacc

/-- Helper: an unresolved base edge forces the found-all-base-classes flag
false. -/
theorem searchBases_flag_false (classes : List ClassRec)
    (f : Nat → Option (Nat × Nat) × Bool) (s : Sig) (bl : List (Option Nat))
    (hmem : none ∈ bl) : (searchBases classes f s bl).2 = false := by
  induction bl with
  | nil => simp at hmem
  | cons ob rest ih =>
    rcases List.mem_cons.mp hmem with rfl | hmem2
    · simp [searchBases]
    · have hacc := ih hmem2
      cases ob with
      | none => simp [searchBases]
      | some bid2 =>
        simp only [searchBases]
        cases hget : classes.get? bid2 with
        | none => simp
        | some bc2 => simp [hacc]

/-- The signature `void f()` shared by every class of the test hierarchies. -/
def sigF : Sig := ⟨"f", [], false⟩

/-- C3: a derived-class member function whose signature is identical to a
virtual function declared in a base class is implicitly virtual even when
the derived declaration omits the `virtual` keyword (stated for every
registry and every resolvable base edge, and checked on the
functionImplicitlyVirtual hierarchy); `getOverriddenFunction` returns the
nearest overridden base-class function — on `B <- D <- D2` the search from
D2 yields D's `f`, not B's — with the found-all-base-classes flag true when
every base branch resolved, and the flag is false whenever some base edge is
of unknown type, while still returning the best finding. -/
theorem implicitly_virtual_and_overridden :
    (∀ (classes : List ClassRec) (cid : Nat) (c : ClassRec) (bid : Nat)
       (bc : ClassRec) (s : Sig) (g : ClassFn),
      classes.get? cid = some c → (some bid) ∈ c.bases →
      classes.get? bid = some bc → g ∈ bc.fns → g.sig = s →
      g.declaredVirtual = true → isImplicitlyVirtual classes cid s = true) ∧
    isImplicitlyVirtual baseDerivedClasses 1 sigF = true ∧
    getOverriddenFunction bDD2Classes 2 sigF = (some (1, 0), true) ∧
    (∀ (classes : List ClassRec) (cid : Nat) (c : ClassRec),
      classes.get? cid = some c → none ∈ c.bases →
      (getOverriddenFunction classes cid sigF).2 = false) ∧
    getOverriddenFunction unknownBaseClasses 1 sigF = (some (0, 0), false) := by
  refine ⟨?_, by decide, by decide, ?_, by decide⟩
  · intro classes cid c bid bc s g hc hmem hbc hg hsig hvirt
    unfold isImplicitlyVirtual getOverriddenFunction getOverriddenAux
    simp only [hc]
    exact searchBases_finds classes _ s c.bases bid bc g hmem hbc hg hsig hvirt
  · intro classes cid c hc hmem
    unfold getOverriddenFunction getOverriddenAux
    simp only [hc]
    exact searchBases_flag_false classes _ sigF c.bases hmem

/-- Witness for `implicitly_virtual_and_overridden` on the
functionImplicitlyVirtual hierarchy: the general statements applied to
`derived : base` and to a class with an unresolved base edge. -/
theorem implicitly_virtual_and_overridden_witness :
    isImplicitlyVirtual baseDerivedClasses 1 sigF = true ∧
    (getOverriddenFunction unknownBaseClasses 1 sigF).2 = false :=
  ⟨implicitly_virtual_and_overridden.1 baseDerivedClasses 1
      ⟨"derived", [some 0], [⟨sigF, false⟩]⟩ 0
      ⟨"base", [], [⟨sigF, true⟩]⟩ sigF ⟨sigF, true⟩
      (by decide) (by decide) (by decide) (by decide) rfl rfl,
   implicitly_virtual_and_overridden.2.2.2.1 unknownBaseClasses 1
      ⟨"E", [some 0, none], [⟨sigF, false⟩]⟩ (by decide) (by decide)⟩

end SymbolDB

namespace SymbolDB

/-! ## Declaration/definition linking (spec 4.4, round-trip property)

An out-of-line definition `Ret Class::method(...)` is linked to its in-class
declaration by matching qualified name, argument count/types (ignoring
top-level cv on by-value parameters), ref-qualifiers, and const/volatile
suffix; the linking is order-independent. -/

/-- Ref-qualifier of a member function. -/
inductive RefQual where
  | noQual
  | lval
  | rval
deriving DecidableEq

/-- One parameter type together with its top-level const qualifier (which is
ignored when matching by-value parameters, per standard rules). -/
structure Param where
  ty : CType
  topConst : Bool
deriving DecidableEq

/-- Normalization of a parameter for matching: top-level cv is dropped. -/
def normalizeParam (p : Param) : Param := ⟨p.ty, false⟩

/-- The linking key of a member function: fully qualified name (namespace
path, class name, function name), parameters, const/volatile suffix and
ref-qualifier. -/
structure FnKey where
  qualName : List String
  params : List Param
  cvSuffix : Bool
  refQual : RefQual
deriving DecidableEq

/-- Modelled from the spec: whether an out-of-line definition's key matches
an in-class declaration's key — same qualified name, same parameter
count/types up to top-level cv on by-value parameters, same cv suffix, same
ref-qualifier. -/
def keyMatches (defk dek : FnKey) : Bool :=
  decide (defk.qualName = dek.qualName) &&
    decide (defk.params.map normalizeParam = dek.params.map normalizeParam) &&
    decide (defk.cvSuffix = dek.cvSuffix) &&
    decide (defk.refQual = dek.refQual)

/-- One top-level item of a translation unit, in source order: a class
declaration carrying its in-class member declarations, or a
namespace-qualified out-of-line member definition. -/
inductive TuItem where
  | classDecl (classQual : List String) (decls : List FnKey)
  | outOfLineDef (key : FnKey)
deriving DecidableEq

/-- Modelled from the spec: whether the translation unit contains an
out-of-line definition matching a declaration's key. -/
def hasMatchingDef (items : List TuItem) (k : FnKey) : Bool :=
  items.any (fun it =>
    match it with
    | .outOfLineDef k2 => keyMatches k2 k
    | _ => false)

/-- One linked Function record: the declaration key and the hasBody flag. -/
structure FnRecord where
  key : FnKey
  hasBody : Bool
deriving DecidableEq

/-- Modelled from the spec: the function list of the class scope with the
given qualified name — the in-class declarations of its (first) class
declaration, each linked to an out-of-line definition anywhere in the
translation unit. Missing from src/: lib/symboldatabase.cpp's
addClassFunction linking. -/
def classFunctionList (items : List TuItem) (classQual : List String) :
    List FnRecord :=
  let decls := items.foldr
    (fun it acc =>
      match it with
      | .classDecl q ds => if q = classQual then ds ++ acc else acc
      | _ => acc) []
  decls.map (fun d => ⟨d, hasMatchingDef items d⟩)

/-- The namespaces2 test: class `X` inside `fred::barney` declaring the
constructor `X(int)`. -/
def xCtorKey : FnKey :=
  ⟨["fred", "barney", "X", "X"], [⟨.sIntT, false⟩], false, .noQual⟩

/-- The class declaration of the namespaces2 test. -/
def xClassItem : TuItem := .classDecl ["fred", "barney", "X"] [xCtorKey]

/-- The reopened-namespace out-of-line definition `X::X(int) { }` of the
namespaces2 test, carried with its fully qualified name. -/
def xCtorDefItem : TuItem := .outOfLineDef xCtorKey

end SymbolDB

namespace SymbolDB

/-- Helper: `List.any` is invariant under permutation. -/
theorem any_perm {α : Type} {l1 l2 : List α} (h : l1.Perm l2) (p : α → Bool) :
    l1.any p = l2.any p := by
  induction h with
  | nil => rfl
  | cons a _ ih => simp [List.any_cons, ih]
  | swap a b l => simp [List.any_cons, Bool.or_left_comm]
  | trans _ _ ih1 ih2 => rw [ih1, ih2]

/-- C6: linking an out-of-line member-function definition to its in-class
declaration is order-independent: the hasBody link computed for any
declaration key is invariant under permutation of the translation unit's
items, and on the namespaces2 example — class `fred::barney::X` declaring
`X(int)` and the reopened-namespace definition `X::X(int) { }` — presenting
the class first or the definition first yields the same single Function
record, one entry with hasBody true, linked by matching qualified name,
normalized argument types, cv suffix and ref-qualifier. -/
theorem declaration_definition_link_order_independent :
    (∀ (items1 items2 : List TuItem) (k : FnKey), items1.Perm items2 →
      hasMatchingDef items1 k = hasMatchingDef items2 k) ∧
    classFunctionList [xClassItem, xCtorDefItem] ["fred", "barney", "X"] =
      [⟨xCtorKey, true⟩] ∧
    classFunctionList [xCtorDefItem, xClassItem] ["fred", "barney", "X"] =
      [⟨xCtorKey, true⟩] ∧
    classFunctionList [xClassItem, xCtorDefItem] ["fred", "barney", "X"] =
      classFunctionList [xCtorDefItem, xClassItem] ["fred", "barney", "X"] ∧
    (classFunctionList [xClassItem, xCtorDefItem] ["fred", "barney", "X"]).length
      = 1 := by
  refine ⟨?_, by decide, by decide, by decide, by decide⟩
  intro items1 items2 k h
  exact any_perm h _

/-- Witness for `declaration_definition_link_order_independent`: swapping the
namespaces2 items does not change the link of the constructor's key. -/
theorem declaration_definition_link_order_independent_witness :
    hasMatchingDef [xClassItem, xCtorDefItem] xCtorKey =
      hasMatchingDef [xCtorDefItem, xClassItem] xCtorKey :=
  declaration_definition_link_order_independent.1
    [xClassItem, xCtorDefItem] [xCtorDefItem, xClassItem] xCtorKey
    (List.Perm.swap xCtorDefItem xClassItem [])

end SymbolDB

namespace SymbolDB

/-! ## Out-of-range queries (spec 7, error taxonomy item 3)

Variable id 0 is reserved as "no variable"; the legacy bounds-checked
array-style accessor `getVariableFromVarId` surfaces a range-check failure
for an id at or past the end of the variable list. -/

/-- One Variable record, keyed by its declaration-site identifier. -/
structure Var where
  vid : Nat
  vname : String
deriving DecidableEq

/-- Modelled from the spec: the variable list of the database — index 0 holds
a reserved "no variable" entry (the fake entry the test counts), and index i
holds the variable with id i. -/
def buildVariableList (vars : List Var) : List (Option Var) :=
  none :: vars.map some

/-- Modelled from the spec: `SymbolDatabase::getVariableFromVarId`, the
legacy bounds-checked array-style accessor (`mVariableList.at(varId)`).
Missing from src/: lib/symboldatabase.h's accessor. Returns the entry for an
id inside the list and raises a range-check failure (`std::out_of_range`)
for an id at or past the list's size. -/
def getVariableFromVarId (l : List (Option Var)) (i : Nat) :
    Except String (Option Var) :=
  if h : i < l.length then .ok (l.get ⟨i, h⟩) else .error "out_of_range"

/-- The getVariableFromVarIdBoundsCheck test database: `int x; int y;`. -/
def xyVariableList : List (Option Var) :=
  buildVariableList [⟨1, "x"⟩, ⟨2, "y"⟩]

end SymbolDB

namespace SymbolDB

/-- C8: every id of an existing variable returns that variable; id 0 is the
reserved "no variable" entry; and an id at or past the size of the variable
list raises a range-check failure instead of returning an arbitrary record.
On the test database `int x; int y;` the list has three entries (the id-0
fake entry plus two variables), id 2 returns `y` and id 3 raises the
out-of-range error. -/
theorem variable_lookup_bounds_checked :
    (∀ (l : List (Option Var)) (i : Nat) (h : i < l.length),
      getVariableFromVarId l i = .ok (l.get ⟨i, h⟩)) ∧
    (∀ (l : List (Option Var)) (i : Nat), l.length ≤ i →
      getVariableFromVarId l i = .error "out_of_range") ∧
    (∀ vars : List Var, getVariableFromVarId (buildVariableList vars) 0 =
      .ok none) ∧
    xyVariableList.length = 3 ∧
    getVariableFromVarId xyVariableList 2 = .ok (some ⟨2, "y"⟩) ∧
    getVariableFromVarId xyVariableList 3 = .error "out_of_range" := by
  refine ⟨?_, ?_, ?_, by decide, by rfl, by rfl⟩
  · intro l i h
    simp [getVariableFromVarId, h]
  · intro l i h
    simp [getVariableFromVarId, Nat.not_lt.mpr h]
  · intro vars
    simp [getVariableFromVarId, buildVariableList]

/-- Witness for `variable_lookup_bounds_checked`: the in-range and
out-of-range cases of the accessor at concrete ids of the test database. -/
theorem variable_lookup_bounds_checked_witness :
    getVariableFromVarId xyVariableList 1 =
      .ok (xyVariableList.get ⟨1, by decide⟩) ∧
    getVariableFromVarId xyVariableList 3 = .error "out_of_range" :=
  ⟨variable_lookup_bounds_checked.1 xyVariableList 1 (by decide),
   variable_lookup_bounds_checked.2.1 xyVariableList 3 (by decide)⟩

end SymbolDB

namespace SymbolDB

/-! ## Crash safety on malformed input (spec 7, spec 8)

Malformed inputs from the historical segmentation-fault regression shapes
complete without an unhandled fault: the builder produces either a (possibly
partial) database with at most debug-level warnings, or a structured
syntax-error signal distinguishable from an unknown-macro signal. -/

/-- Modelled from the spec: the outcome of one symbol-database build — a
(possibly partial) database carrying its debug warnings, or one of the two
structured signals of the error taxonomy; the constructors make the
"syntax error" signal distinguishable from the "unknown macro" signal. -/
inductive BuildOutcome where
  | builtDb (warnings : List String)
  | synErrSignal (msg : String)
  | unknownMacroSignal (msg : String)
deriving DecidableEq

/-- Modelled from the spec: the historical segmentation-fault regression
shapes named by the claim — `::y(){x}` (symboldatabase19), an incomplete
base-class list `struct x : virtual y` (symboldatabase20), and deeply nested
unknown templates of any depth. -/
inductive RegressionShape where
  | unqualifiedBodyUnknownFn
  | incompleteBaseClassList
  | nestedUnknownTemplates (depth : Nat)
deriving DecidableEq

/-- Modelled from the spec: building the symbol database over the nested
unknown-template shape recurses over the nesting depth and completes at
every depth with a best-effort database. Missing from src/: the
SymbolDatabase constructor of lib/symboldatabase.cpp. -/
def buildNestedTemplates : Nat → BuildOutcome
  | 0 => .builtDb []
  | Nat.succ d =>
    match buildNestedTemplates d with
    | .builtDb w => .builtDb w
    | e => e

/-- Modelled from the spec: the build boundary on the regression shapes —
`::y(){x}` yields a partial database with the debug-level "Executable scope
with unknown function" warning, the incomplete base-class list raises the
structured syntax-error signal (ASSERT_THROW_INTERNAL(..., SYNTAX) in
symboldatabase20), and nested unknown templates complete at any depth. -/
def buildSymbolDatabase : RegressionShape → BuildOutcome
  | .unqualifiedBodyUnknownFn =>
    .builtDb ["Executable scope y with unknown function"]
  | .incompleteBaseClassList => .synErrSignal "syntax error"
  | .nestedUnknownTemplates d => buildNestedTemplates d

end SymbolDB

namespace SymbolDB

/-- C7: for every malformed input drawn from the historical
segmentation-fault regression shapes, building the symbol database completes
with either a (possibly partial) database or a structured syntax-error
signal — never an unknown-macro signal misreported and never an unhandled
fault (totality of the build function) — and the syntax-error signal is
distinguishable from the unknown-macro signal; concretely, `::y(){x}` builds
a partial database with a debug warning and `struct x : virtual y` raises
the syntax-error signal. -/
theorem malformed_input_build_completes :
    (∀ i : RegressionShape,
      (∃ w, buildSymbolDatabase i = .builtDb w) ∨
      (∃ m, buildSymbolDatabase i = .synErrSignal m)) ∧
    (∀ m m', (BuildOutcome.synErrSignal m ≠ BuildOutcome.unknownMacroSignal m')) ∧
    buildSymbolDatabase .unqualifiedBodyUnknownFn =
      .builtDb ["Executable scope y with unknown function"] ∧
    buildSymbolDatabase .incompleteBaseClassList = .synErrSignal "syntax error" := by
  refine ⟨?_, fun m m' => by simp, by decide, by decide⟩
  intro i
  cases i with
  | unqualifiedBodyUnknownFn => exact Or.inl ⟨_, rfl⟩
  | incompleteBaseClassList => exact Or.inr ⟨_, rfl⟩
  | nestedUnknownTemplates d =>
    left
    induction d with
    | zero => exact ⟨[], rfl⟩
    | succ d ih =>
      rcases ih with ⟨w, hw⟩
      exact ⟨w, by simp [buildSymbolDatabase, buildNestedTemplates] at hw ⊢; rw [hw]⟩

end SymbolDB

namespace SymbolDB

/-- Witness for `malformed_input_build_completes`: the build outcome on the
incomplete base-class list shape is the syntax-error signal, and that signal
is not the unknown-macro signal. -/
theorem malformed_input_build_completes_witness :
    (∃ w, buildSymbolDatabase .unqualifiedBodyUnknownFn = .builtDb w) ∨
    (∃ m, buildSymbolDatabase .unqualifiedBodyUnknownFn = .synErrSignal m) :=
  malformed_input_build_completes.1 .unqualifiedBodyUnknownFn

end SymbolDB

namespace SymbolDB

/-! ## ValueType inference: auto deduction and character literals (spec 4.6)

Reference collapsing for `auto`: by-value binds drop top-level reference and
copy qualifiers per binding form; `auto`, `auto&`, `auto&&`, `const auto&`,
`const auto*` each have distinct, specified qualifier/indirection outcomes. -/

/-- Sign of a ValueType. -/
inductive VtSign where
  | signedS
  | unsignedS
  | unknownSign
deriving DecidableEq

/-- Primitive kind of a ValueType. -/
inductive VtType where
  | boolV
  | charV
  | wcharV
  | shortV
  | intV
  | longV
  | longlongV
  | floatV
  | doubleV
  | longdoubleV
  | voidV
  | recordV (rname : String)
  | unknownV
deriving DecidableEq

/-- Reference kind of a ValueType. -/
inductive VtRef where
  | noRef
  | lvalueRef
  | rvalueRef
deriving DecidableEq

/-- One ValueType: sign, primitive kind, pointer-indirection count,
per-level constness bitfield (bit i is the const flag of indirection level
i, bit 0 being the base type), and reference kind. -/
structure ValueTypeR where
  sign : VtSign
  type : VtType
  pointer : Nat
  constness : Nat
  reference : VtRef
deriving DecidableEq

/-- Bit `i` of a constness bitfield (0 or 1). -/
def constBit (c i : Nat) : Nat := c / 2 ^ i % 2

/-- Set bit `i` of a constness bitfield, leaving the other bits unchanged. -/
def setConstBit (c i : Nat) : Nat :=
  2 ^ i * (2 * (c / 2 ^ (i + 1)) + 1) + c % 2 ^ i

/-- Clear bit `i` of a constness bitfield, leaving the other bits
unchanged. -/
def clearConstBit (c i : Nat) : Nat :=
  2 ^ i * (2 * (c / 2 ^ (i + 1))) + c % 2 ^ i

/-- The `auto` binding forms with distinct deduction outcomes. -/
inductive BindForm where
  | byValue
  | lrefForm
  | rrefForm
  | constLrefForm
  | ptrForm
  | constPtrForm
deriving DecidableEq

/-- Modelled from the spec: `auto` deduction per binding form over the
initializer's ValueType. Missing from src/: the ValueType inference engine
(setValueType) of lib/symboldatabase.cpp. `auto` copies the value dropping
the top-level reference and top-level const; `auto&`/`auto&&` bind by
reference keeping qualifiers; `const auto&` adds top-level const and binds
as an lvalue reference; `auto*` keeps the pointer indirection with the
constness recorded on the pointee levels; `const auto*` additionally makes
the pointee const. -/
def autoDeduce : BindForm → ValueTypeR → ValueTypeR
  | .byValue, t =>
    ⟨t.sign, t.type, t.pointer, clearConstBit t.constness t.pointer, .noRef⟩
  | .lrefForm, t => ⟨t.sign, t.type, t.pointer, t.constness, .lvalueRef⟩
  | .rrefForm, t => ⟨t.sign, t.type, t.pointer, t.constness, .rvalueRef⟩
  | .constLrefForm, t =>
    ⟨t.sign, t.type, t.pointer, setConstBit t.constness t.pointer, .lvalueRef⟩
  | .ptrForm, t =>
    ⟨t.sign, t.type, t.pointer, clearConstBit t.constness t.pointer, .noRef⟩
  | .constPtrForm, t =>
    ⟨t.sign, t.type, t.pointer,
      setConstBit (clearConstBit t.constness t.pointer) (t.pointer - 1), .noRef⟩

/-- The ValueType of a plain `int` expression. -/
def intValueType : ValueTypeR := ⟨.signedS, .intV, 0, 0, .noRef⟩

/-- The ValueType of `(const int*)0`: pointer indirection 1 with the
constness bit of the pointee level set. -/
def constIntPtrValueType : ValueTypeR := ⟨.signedS, .intV, 1, 1, .noRef⟩

end SymbolDB

namespace SymbolDB

/-- C4: `const auto& x = y;` with `y` an `int` gives `x` the ValueType
const int with lvalue-reference kind and pointer indirection 0, and
`auto* p = (const int*)0;` gives `p` pointer indirection 1 with the
constness on the pointee level (bit 0) and none on the top level; in
general `const auto&` always binds as an lvalue reference preserving
indirection, and `auto*` never carries top-level constness. -/
theorem auto_deduction_spec :
    autoDeduce .constLrefForm intValueType =
      ⟨.signedS, .intV, 0, 1, .lvalueRef⟩ ∧
    autoDeduce .ptrForm constIntPtrValueType =
      ⟨.signedS, .intV, 1, 1, .noRef⟩ ∧
    constBit (autoDeduce .ptrForm constIntPtrValueType).constness 0 = 1 ∧
    constBit (autoDeduce .ptrForm constIntPtrValueType).constness 1 = 0 ∧
    (∀ t, (autoDeduce .constLrefForm t).reference = .lvalueRef ∧
      (autoDeduce .constLrefForm t).pointer = t.pointer ∧
      constBit (autoDeduce .constLrefForm t).constness t.pointer = 1) ∧
    (∀ t, (autoDeduce .ptrForm t).reference = .noRef ∧
      (autoDeduce .ptrForm t).pointer = t.pointer ∧
      constBit (autoDeduce .ptrForm t).constness t.pointer = 0) := by
  have hp : ∀ i : Nat, 0 < 2 ^ i := fun i => Nat.pos_pow_of_pos i (by decide)
  refine ⟨by decide, by decide, by decide, by decide, fun t => ⟨rfl, rfl, ?_⟩,
    fun t => ⟨rfl, rfl, ?_⟩⟩
  · show constBit (setConstBit t.constness t.pointer) t.pointer = 1
    unfold constBit setConstBit
    rw [Nat.mul_add_div (hp t.pointer),
      Nat.div_eq_of_lt (Nat.mod_lt _ (hp t.pointer)), Nat.add_zero,
      Nat.mul_add_mod]
  · show constBit (clearConstBit t.constness t.pointer) t.pointer = 0
    unfold constBit clearConstBit
    rw [Nat.mul_add_div (hp t.pointer),
      Nat.div_eq_of_lt (Nat.mod_lt _ (hp t.pointer)), Nat.add_zero,
      Nat.mul_mod_right]

end SymbolDB

namespace SymbolDB

/-! ## ValueType inference: character literals (spec 4.6, test valueType1)

Literal prefix rules are language-dependent at the public interface: the
translation unit's language (C or C++) is part of the query. -/

/-- The prefix of a character literal: none, or the wide prefix `L`. -/
inductive CharLitPrefix where
  | plainLit
  | wideLit
deriving DecidableEq

/-- Modelled from the spec: the ValueType (sign and primitive kind) the
inference engine assigns to a character literal, given the translation
unit's language (`isCpp` true for C++), the literal's prefix, and the number
of characters it holds. Missing from src/: the literal rules of
lib/symboldatabase.cpp's setValueType. A wide literal is `wchar_t` in both
languages; a single-character plain literal is `char` in C++ and
`signed int` in C; a multi-character literal is `signed int` in both
languages. -/
def charLiteralValueType (isCpp : Bool) (p : CharLitPrefix) (len : Nat) :
    VtSign × VtType :=
  match p with
  | .wideLit => (.unknownSign, .wcharV)
  | .plainLit =>
    if len = 1 then
      if isCpp then (.unknownSign, .charV) else (.signedS, .intV)
    else (.signedS, .intV)

end SymbolDB

namespace SymbolDB

/-- C10: character-literal typing is language-dependent: `'a'` is char when
the translation unit is C++ and signed int when it is C; `L'a'` is wchar_t
in both languages; a multi-character literal such as `'aaa'` is signed int
in both languages (stated for every length of at least two and every
language). -/
theorem char_literal_type_language_dependent :
    charLiteralValueType true .plainLit 1 = (.unknownSign, .charV) ∧
    charLiteralValueType false .plainLit 1 = (.signedS, .intV) ∧
    (∀ b, charLiteralValueType b .wideLit 1 = (.unknownSign, .wcharV)) ∧
    charLiteralValueType true .plainLit 3 = (.signedS, .intV) ∧
    charLiteralValueType false .plainLit 3 = (.signedS, .intV) ∧
    (∀ b n, charLiteralValueType b .plainLit (n + 2) = (.signedS, .intV)) := by
  refine ⟨rfl, rfl, fun b => rfl, rfl, rfl, fun b n => ?_⟩
  simp [charLiteralValueType]

end SymbolDB
